import Mathlib

/-!
Verification development for the camera / view-frustum core of
`irrlicht0.1/include/ICameraSceneNode.h`.

The repository ships only the interface header: `SViewFrustrum` (the view
frustum data model and its plane enumeration) and the abstract class
`ICameraSceneNode` (pure virtual methods with documented defaults).  The
concrete implementations (projection building, frustum extraction, the
camera state machine) are therefore modelled from the specification, as
marked on each definition.  Real-valued (`f32`) quantities are embedded as
real numbers `ℝ`.
-/

namespace Irr

/-- Model of `core::vector3df`: a 3-component vector of reals. -/
structure vector3df where
  x : ℝ
  y : ℝ
  z : ℝ

/-- Dot product of two 3-vectors. -/
def dot3 (a b : vector3df) : ℝ :=
  a.x * b.x + a.y * b.y + a.z * b.z

/-- Componentwise sum of two 3-vectors. -/
def add3 (a b : vector3df) : vector3df :=
  ⟨a.x + b.x, a.y + b.y, a.z + b.z⟩

/-- Cross product of two 3-vectors. -/
def cross3 (a b : vector3df) : vector3df :=
  ⟨a.y * b.z - a.z * b.y, a.z * b.x - a.x * b.z, a.x * b.y - a.y * b.x⟩

noncomputable section

/-- Scaling of a 3-vector by a real. -/
def scale3 (c : ℝ) (a : vector3df) : vector3df :=
  ⟨c * a.x, c * a.y, c * a.z⟩

/-- Euclidean length of a 3-vector. -/
def norm3 (a : vector3df) : ℝ :=
  Real.sqrt (dot3 a a)

/-- Model of `core::matrix4`, a 4x4 real matrix.  Field `mij` is the entry
in row `i`, column `j`; the matrix acts on column vectors, so a point
`(x, y, z)` with homogeneous coordinate `1` maps to clip coordinates whose
i-th component is `mi0*x + mi1*y + mi2*z + mi3`. -/
structure Matrix4 where
  m00 : ℝ
  m01 : ℝ
  m02 : ℝ
  m03 : ℝ
  m10 : ℝ
  m11 : ℝ
  m12 : ℝ
  m13 : ℝ
  m20 : ℝ
  m21 : ℝ
  m22 : ℝ
  m23 : ℝ
  m30 : ℝ
  m31 : ℝ
  m32 : ℝ
  m33 : ℝ

/-- Matrix product `A * B` (column-vector convention: applying `mul4 A B`
to a point first applies `B`, then `A`). -/
def mul4 (A B : Matrix4) : Matrix4 where
  m00 := A.m00 * B.m00 + A.m01 * B.m10 + A.m02 * B.m20 + A.m03 * B.m30
  m01 := A.m00 * B.m01 + A.m01 * B.m11 + A.m02 * B.m21 + A.m03 * B.m31
  m02 := A.m00 * B.m02 + A.m01 * B.m12 + A.m02 * B.m22 + A.m03 * B.m32
  m03 := A.m00 * B.m03 + A.m01 * B.m13 + A.m02 * B.m23 + A.m03 * B.m33
  m10 := A.m10 * B.m00 + A.m11 * B.m10 + A.m12 * B.m20 + A.m13 * B.m30
  m11 := A.m10 * B.m01 + A.m11 * B.m11 + A.m12 * B.m21 + A.m13 * B.m31
  m12 := A.m10 * B.m02 + A.m11 * B.m12 + A.m12 * B.m22 + A.m13 * B.m32
  m13 := A.m10 * B.m03 + A.m11 * B.m13 + A.m12 * B.m23 + A.m13 * B.m33
  m20 := A.m20 * B.m00 + A.m21 * B.m10 + A.m22 * B.m20 + A.m23 * B.m30
  m21 := A.m20 * B.m01 + A.m21 * B.m11 + A.m22 * B.m21 + A.m23 * B.m31
  m22 := A.m20 * B.m02 + A.m21 * B.m12 + A.m22 * B.m22 + A.m23 * B.m32
  m23 := A.m20 * B.m03 + A.m21 * B.m13 + A.m22 * B.m23 + A.m23 * B.m33
  m30 := A.m30 * B.m00 + A.m31 * B.m10 + A.m32 * B.m20 + A.m33 * B.m30
  m31 := A.m30 * B.m01 + A.m31 * B.m11 + A.m32 * B.m21 + A.m33 * B.m31
  m32 := A.m30 * B.m02 + A.m31 * B.m12 + A.m32 * B.m22 + A.m33 * B.m32
  m33 := A.m30 * B.m03 + A.m31 * B.m13 + A.m32 * B.m23 + A.m33 * B.m33

/-- Clip-space x-coordinate of a point (homogeneous coordinate 1). -/
def applyX (M : Matrix4) (p : vector3df) : ℝ :=
  M.m00 * p.x + M.m01 * p.y + M.m02 * p.z + M.m03

/-- Clip-space y-coordinate of a point (homogeneous coordinate 1). -/
def applyY (M : Matrix4) (p : vector3df) : ℝ :=
  M.m10 * p.x + M.m11 * p.y + M.m12 * p.z + M.m13

/-- Clip-space z-coordinate of a point (homogeneous coordinate 1). -/
def applyZ (M : Matrix4) (p : vector3df) : ℝ :=
  M.m20 * p.x + M.m21 * p.y + M.m22 * p.z + M.m23

/-- Clip-space w-coordinate of a point (homogeneous coordinate 1). -/
def applyW (M : Matrix4) (p : vector3df) : ℝ :=
  M.m30 * p.x + M.m31 * p.y + M.m32 * p.z + M.m33

/-- Clip depth of a camera-space or world point after the perspective
W-divide: z component divided by w component of the clip coordinates. -/
def projectedDepth (M : Matrix4) (p : vector3df) : ℝ :=
  applyZ M p / applyW M p

/-- Identity 4x4 matrix. -/
def identity4 : Matrix4 :=
  ⟨1, 0, 0, 0, 0, 1, 0, 0, 0, 0, 1, 0, 0, 0, 0, 1⟩

/-- Model of `core::plane3dex<f32>`: an oriented plane with `normal` and
signed distance `d`; a point `p` lies on the plane when
`dot3 normal p + d = 0`. -/
structure plane3dex where
  normal : vector3df
  d : ℝ

/-- Signed value of a plane equation at a point. -/
def planeValue (pl : plane3dex) (p : vector3df) : ℝ :=
  dot3 pl.normal p + pl.d

/-- Classification used by the frustum: points inside the frustum satisfy
`dot3 normal p + d ≥ 0` for every plane. -/
def isInsidePlane (pl : plane3dex) (p : vector3df) : Prop :=
  0 ≤ planeValue pl p

/-- Normalization of a plane: divide normal and distance by the length of
the normal, so that the stored normal has unit length. -/
def normalizePlane (pl : plane3dex) : plane3dex :=
  ⟨scale3 (1 / norm3 pl.normal) pl.normal, pl.d / norm3 pl.normal⟩

/-- Modelled from the spec: `ProjectionBuilder.build(fov, aspect, near, far)`
(the concrete builder, e.g. `core::matrix4::buildProjectionMatrixPerspectiveFovLH`
named by the header comment, is not in the repository sources).  Left-handed
perspective projection: Y is scaled by `cot(fov/2)`, X by `cot(fov/2)/aspect`,
and the Z row maps `near` to depth 0 and `far` to depth 1 after the W-divide. -/
def buildProjection (fov aspect zn zf : ℝ) : Matrix4 :=
  let h : ℝ := 1 / Real.tan (fov / 2)
  let w : ℝ := h / aspect
  let q : ℝ := zf / (zf - zn)
  ⟨w, 0, 0, 0,
   0, h, 0, 0,
   0, 0, q, -zn * q,
   0, 0, 1, 0⟩

/-- Enumerator `SViewFrustrum::CVA_FAR_PLANE` (first enumerator, value 0). -/
def CVA_FAR_PLANE : Nat := 0

/-- Enumerator `SViewFrustrum::CVA_NEAR_PLANE` (auto-incremented). -/
def CVA_NEAR_PLANE : Nat := CVA_FAR_PLANE + 1

/-- Enumerator `SViewFrustrum::CVA_LEFT_PLANE` (auto-incremented). -/
def CVA_LEFT_PLANE : Nat := CVA_NEAR_PLANE + 1

/-- Enumerator `SViewFrustrum::CVA_RIGHT_PLANE` (auto-incremented). -/
def CVA_RIGHT_PLANE : Nat := CVA_LEFT_PLANE + 1

/-- Enumerator `SViewFrustrum::CVA_BOTTOM_PLANE` (auto-incremented). -/
def CVA_BOTTOM_PLANE : Nat := CVA_RIGHT_PLANE + 1

/-- Enumerator `SViewFrustrum::CVA_TOP_PLANE` (auto-incremented). -/
def CVA_TOP_PLANE : Nat := CVA_BOTTOM_PLANE + 1

/-- Enumerator `SViewFrustrum::CVA_PLANE_COUNT`: the number of planes
enclosing the view frustum. -/
def CVA_PLANE_COUNT : Nat := CVA_TOP_PLANE + 1

/-- Model of `core::aabbox3d<f32>`: an axis-aligned box given by its two
extreme corners. -/
structure aabbox3d where
  MinEdge : vector3df
  MaxEdge : vector3df

/-- Reset the box to contain the single point `p`. -/
def aabboxReset (p : vector3df) : aabbox3d :=
  ⟨p, p⟩

/-- Grow the box so that it also contains the point `p`
(`aabbox3d::addInternalPoint`). -/
def addInternalPoint (b : aabbox3d) (p : vector3df) : aabbox3d :=
  ⟨⟨min b.MinEdge.x p.x, min b.MinEdge.y p.y, min b.MinEdge.z p.z⟩,
   ⟨max b.MaxEdge.x p.x, max b.MaxEdge.y p.y, max b.MaxEdge.z p.z⟩⟩

/-- Containment test of `aabbox3d` (`isPointInside`): each coordinate lies
between the corresponding coordinates of the two extreme corners. -/
def isPointInsideBox (b : aabbox3d) (p : vector3df) : Prop :=
  (b.MinEdge.x ≤ p.x ∧ p.x ≤ b.MaxEdge.x) ∧
  (b.MinEdge.y ≤ p.y ∧ p.y ≤ b.MaxEdge.y) ∧
  (b.MinEdge.z ≤ p.z ∧ p.z ≤ b.MaxEdge.z)

/-- Model of `struct SViewFrustrum`: six planes indexed by the enumeration
above, the four shared far corner points, and the bounding box around them. -/
structure SViewFrustrum where
  planes : Fin CVA_PLANE_COUNT → plane3dex
  rightFarDown : vector3df
  leftFarDown : vector3df
  rightFarUp : vector3df
  leftFarUp : vector3df
  box : aabbox3d

/-- Modelled from the spec: the far clip plane extracted from a combined
view-projection matrix as the row combination `row3 - row2`, before
normalization (the FrustumCalculator implementation is not in the
repository sources). -/
def preFarPlaneOf (M : Matrix4) : plane3dex :=
  ⟨⟨M.m30 - M.m20, M.m31 - M.m21, M.m32 - M.m22⟩, M.m33 - M.m23⟩

/-- Modelled from the spec: the near clip plane combination `row2`. -/
def preNearPlaneOf (M : Matrix4) : plane3dex :=
  ⟨⟨M.m20, M.m21, M.m22⟩, M.m23⟩

/-- Modelled from the spec: the left clip plane combination `row3 + row0`. -/
def preLeftPlaneOf (M : Matrix4) : plane3dex :=
  ⟨⟨M.m30 + M.m00, M.m31 + M.m01, M.m32 + M.m02⟩, M.m33 + M.m03⟩

/-- Modelled from the spec: the right clip plane combination `row3 - row0`. -/
def preRightPlaneOf (M : Matrix4) : plane3dex :=
  ⟨⟨M.m30 - M.m00, M.m31 - M.m01, M.m32 - M.m02⟩, M.m33 - M.m03⟩

/-- Modelled from the spec: the bottom clip plane combination `row3 + row1`. -/
def preBottomPlaneOf (M : Matrix4) : plane3dex :=
  ⟨⟨M.m30 + M.m10, M.m31 + M.m11, M.m32 + M.m12⟩, M.m33 + M.m13⟩

/-- Modelled from the spec: the top clip plane combination `row3 - row1`. -/
def preTopPlaneOf (M : Matrix4) : plane3dex :=
  ⟨⟨M.m30 - M.m10, M.m31 - M.m11, M.m32 - M.m12⟩, M.m33 - M.m13⟩

/-- The stored far clip plane: the row combination, normalized. -/
def farPlaneOf (M : Matrix4) : plane3dex := normalizePlane (preFarPlaneOf M)

/-- The stored near clip plane: the row combination, normalized. -/
def nearPlaneOf (M : Matrix4) : plane3dex := normalizePlane (preNearPlaneOf M)

/-- The stored left clip plane: the row combination, normalized. -/
def leftPlaneOf (M : Matrix4) : plane3dex := normalizePlane (preLeftPlaneOf M)

/-- The stored right clip plane: the row combination, normalized. -/
def rightPlaneOf (M : Matrix4) : plane3dex := normalizePlane (preRightPlaneOf M)

/-- The stored bottom clip plane: the row combination, normalized. -/
def bottomPlaneOf (M : Matrix4) : plane3dex := normalizePlane (preBottomPlaneOf M)

/-- The stored top clip plane: the row combination, normalized. -/
def topPlaneOf (M : Matrix4) : plane3dex := normalizePlane (preTopPlaneOf M)

/-- Intersection point of three planes, by the Cramer-rule formula: with
plane equations `ni . x = -di`, the common point is
`(-d1 (n2 x n3) - d2 (n3 x n1) - d3 (n1 x n2)) / (n1 . (n2 x n3))`. -/
def intersectPlanes (p1 p2 p3 : plane3dex) : vector3df :=
  let det : ℝ := dot3 p1.normal (cross3 p2.normal p3.normal)
  scale3 (1 / det)
    (add3 (add3 (scale3 (-p1.d) (cross3 p2.normal p3.normal))
                (scale3 (-p2.d) (cross3 p3.normal p1.normal)))
          (scale3 (-p3.d) (cross3 p1.normal p2.normal)))

/-- Modelled from the spec: `FrustumCalculator.extract(viewProjection, eye)`
(not in the repository sources).  Builds the six normalized clip planes in
the enumeration order far, near, left, right, bottom, top; computes the four
far corners by solving the three-plane intersections directly; and grows the
bounding box from the eye position over the four far corners (the eye point
is included, the conservative choice the spec design notes recommend). -/
def extractFrustum (M : Matrix4) (eye : vector3df) : SViewFrustrum :=
  let fPl := farPlaneOf M
  let nPl := nearPlaneOf M
  let lPl := leftPlaneOf M
  let rPl := rightPlaneOf M
  let bPl := bottomPlaneOf M
  let tPl := topPlaneOf M
  let rfd := intersectPlanes fPl rPl bPl
  let lfd := intersectPlanes fPl lPl bPl
  let rfu := intersectPlanes fPl rPl tPl
  let lfu := intersectPlanes fPl lPl tPl
  { planes := fun i =>
      if i.val = CVA_FAR_PLANE then fPl
      else if i.val = CVA_NEAR_PLANE then nPl
      else if i.val = CVA_LEFT_PLANE then lPl
      else if i.val = CVA_RIGHT_PLANE then rPl
      else if i.val = CVA_BOTTOM_PLANE then bPl
      else tPl
    rightFarDown := rfd
    leftFarDown := lfd
    rightFarUp := rfu
    leftFarUp := lfu
    box := addInternalPoint (addInternalPoint (addInternalPoint
             (addInternalPoint (aabboxReset eye) rfd) lfd) rfu) lfu }

/-- Modelled from the spec: a rigid camera view transform — the look-at
matrix composed with the world transform of the scene-graph node (neither
is in the repository sources).  It is given by the three rows of its
rotational part (the camera basis expressed in world coordinates) and a
translation; a world point `p` maps to camera space as `R p + t`. -/
structure ViewTransform where
  r0 : vector3df
  r1 : vector3df
  r2 : vector3df
  t : vector3df

/-- The 4x4 matrix of a rigid view transform (column-vector convention). -/
def viewMatrixOf (V : ViewTransform) : Matrix4 :=
  ⟨V.r0.x, V.r0.y, V.r0.z, V.t.x,
   V.r1.x, V.r1.y, V.r1.z, V.t.y,
   V.r2.x, V.r2.y, V.r2.z, V.t.z,
   0, 0, 0, 1⟩

/-- Application of a rigid view transform to a world point. -/
def viewApply (V : ViewTransform) (p : vector3df) : vector3df :=
  ⟨dot3 V.r0 p + V.t.x, dot3 V.r1 p + V.t.y, dot3 V.r2 p + V.t.z⟩

/-- Rigidity of a view transform: its three rotation rows form an
orthonormal basis.  This is the defining property of a look-at transform
composed with a rigid world transform and characterizes a valid camera
state in the orientation theorems below. -/
def orthonormalRows (V : ViewTransform) : Prop :=
  dot3 V.r0 V.r0 = 1 ∧ dot3 V.r1 V.r1 = 1 ∧ dot3 V.r2 V.r2 = 1 ∧
  dot3 V.r0 V.r1 = 0 ∧ dot3 V.r0 V.r2 = 0 ∧ dot3 V.r1 V.r2 = 0

/-- The combined view-projection transform of a camera with the given
parameters and view transform: projection after view. -/
def viewProj (fov aspect zn zf : ℝ) (V : ViewTransform) : Matrix4 :=
  mul4 (buildProjection fov aspect zn zf) (viewMatrixOf V)

/-- The identity view transform (camera at the origin looking down the
positive Z axis with Y up). -/
def identView : ViewTransform :=
  ⟨⟨1, 0, 0⟩, ⟨0, 1, 0⟩, ⟨0, 0, 1⟩, ⟨0, 0, 0⟩⟩

/-- The view frustum of a camera state given by projection parameters, a
view transform and the eye position: the frustum extracted from the
combined view-projection transform. -/
def cameraFrustum (fov aspect zn zf : ℝ) (V : ViewTransform)
    (eye : vector3df) : SViewFrustrum :=
  extractFrustum (viewProj fov aspect zn zf V) eye

/-- Minimal model of `SEvent` (from `IEventReceiver.h`, not in the repository
sources): a discrete keyboard/mouse-shaped input event. -/
structure SEvent where
  eventType : Nat
  keyCode : Nat
  mouseX : Int
  mouseY : Int

/-- Modelled from the spec: the camera state owned by a camera scene node.
`explicitProjection = some m` is the Explicit mode (matrix `m` stored
verbatim), `none` is the Derived mode (projection recomputed from the four
scalars).  `viewMatrix` is the view transform supplied by the scene-graph
collaborator; `cachedFrustum` is the lazily recomputed frustum cache. -/
structure CameraState where
  position : vector3df
  target : vector3df
  upVector : vector3df
  viewMatrix : Matrix4
  nearValue : ℝ
  farValue : ℝ
  aspectRatio : ℝ
  fieldOfView : ℝ
  explicitProjection : Option Matrix4
  cachedFrustum : Option SViewFrustrum

/-- Getter `getNearValue`. -/
def getNearValue (s : CameraState) : ℝ := s.nearValue

/-- Getter `getFarValue`. -/
def getFarValue (s : CameraState) : ℝ := s.farValue

/-- Getter `getAspectRatio`. -/
def getAspectRatio (s : CameraState) : ℝ := s.aspectRatio

/-- Getter `getFOV`. -/
def getFOV (s : CameraState) : ℝ := s.fieldOfView

/-- Modelled from the spec: `getProjectionMatrix` returns the explicit
matrix when one is set, else the projection derived from the current four
scalars via the projection builder. -/
def getProjectionMatrix (s : CameraState) : Matrix4 :=
  match s.explicitProjection with
  | some m => m
  | none => buildProjection s.fieldOfView s.aspectRatio s.nearValue s.farValue

/-- Modelled from the spec: `setProjectionMatrix` stores the matrix verbatim
and switches to Explicit mode; the frustum cache becomes stale. -/
def setProjectionMatrix (s : CameraState) (m : Matrix4) : CameraState :=
  { s with explicitProjection := some m, cachedFrustum := none }

/-- Modelled from the spec: `setNearValue` with the documented
InvalidParameter policy chosen as reject-as-no-op: an argument violating
`0 < zn < farValue` leaves the state unchanged; a valid argument updates the
scalar, discards any explicit projection matrix (reverting to Derived mode)
and invalidates the frustum cache. -/
def setNearValue (s : CameraState) (zn : ℝ) : CameraState :=
  if 0 < zn ∧ zn < s.farValue then
    { s with nearValue := zn, explicitProjection := none, cachedFrustum := none }
  else s

/-- Modelled from the spec: `setFarValue`, same reject-as-no-op policy
(valid when `nearValue < zf`). -/
def setFarValue (s : CameraState) (zf : ℝ) : CameraState :=
  if s.nearValue < zf then
    { s with farValue := zf, explicitProjection := none, cachedFrustum := none }
  else s

/-- Modelled from the spec: `setAspectRatio`, same reject-as-no-op policy
(valid when `0 < aspect`). -/
def setAspectRatio (s : CameraState) (aspect : ℝ) : CameraState :=
  if 0 < aspect then
    { s with aspectRatio := aspect, explicitProjection := none, cachedFrustum := none }
  else s

/-- Modelled from the spec: `setFOV`, same reject-as-no-op policy
(valid when `0 < fovy < π`). -/
def setFOV (s : CameraState) (fovy : ℝ) : CameraState :=
  if 0 < fovy ∧ fovy < Real.pi then
    { s with fieldOfView := fovy, explicitProjection := none, cachedFrustum := none }
  else s

/-- Setter `setTarget`: plain accessor; the view (hence the frustum cache)
becomes stale, the projection mode is untouched. -/
def setTarget (s : CameraState) (pos : vector3df) : CameraState :=
  { s with target := pos, cachedFrustum := none }

/-- Setter `setUpVector`: plain accessor; the view (hence the frustum cache)
becomes stale, the projection mode is untouched. -/
def setUpVector (s : CameraState) (pos : vector3df) : CameraState :=
  { s with upVector := pos, cachedFrustum := none }

/-- Modelled from the spec: `getViewFrustrum` returns the cached frustum if
it is valid, else recomputes it from the combined view-projection transform
and the eye position and caches the result.  The returned pair is the
frustum together with the (possibly updated) camera state. -/
def getViewFrustrum (s : CameraState) : SViewFrustrum × CameraState :=
  match s.cachedFrustum with
  | some f => (f, s)
  | none =>
    let f := extractFrustum (mul4 (getProjectionMatrix s) s.viewMatrix) s.position
    (f, { s with cachedFrustum := some f })

/-- Modelled from the spec: the base `OnEvent` behavior of the camera —
ignore the event (no state change) and return not-consumed (`false`). -/
def OnEvent (s : CameraState) (event : SEvent) : Bool × CameraState :=
  (false, s)

/-- Modelled from the spec: a freshly constructed camera state, with the
documented defaults `near = 1.0`, `far = 2000.0`, `aspect = 4/3`,
`fov = π/3.5`, Derived projection mode and an empty frustum cache. -/
def initialCamera : CameraState :=
  { position := ⟨0, 0, 0⟩
    target := ⟨0, 0, 1⟩
    upVector := ⟨0, 1, 0⟩
    viewMatrix := identity4
    nearValue := 1
    farValue := 2000
    aspectRatio := 4 / 3
    fieldOfView := Real.pi / 3.5
    explicitProjection := none
    cachedFrustum := none }

/-- Validity of a camera parameter set, per the data-model invariants. -/
def validParams (s : CameraState) : Prop :=
  0 < s.nearValue ∧ s.nearValue < s.farValue ∧ 0 < s.aspectRatio ∧
  0 < s.fieldOfView ∧ s.fieldOfView < Real.pi

/-- Model of the `ISceneNode` base-class state reached by the
`ICameraSceneNode` constructor: the constructor arguments it stores.
Pointers to the parent node and the scene manager are modelled as handles. -/
structure ISceneNodeData where
  parent : Nat
  mgr : Nat
  id : Int
  position : vector3df
  rotation : vector3df
  scaleFactor : vector3df

/-- The `ICameraSceneNode` constructor with all six arguments given: it
forwards parent, manager, id, position, rotation and scale unchanged to the
`ISceneNode` base constructor. -/
def mkCameraSceneNode (parent mgr : Nat) (id : Int)
    (position rotation scaleArg : vector3df) : ISceneNodeData :=
  ⟨parent, mgr, id, position, rotation, scaleArg⟩

/-- The `ICameraSceneNode` constructor with the position, rotation and scale
arguments omitted: the header supplies the defaults `(0,0,0)`, `(0,0,0)` and
`(1,1,1)`. -/
def mkCameraSceneNodeDefault (parent mgr : Nat) (id : Int) : ISceneNodeData :=
  mkCameraSceneNode parent mgr id ⟨0, 0, 0⟩ ⟨0, 0, 0⟩ ⟨1, 1, 1⟩

end

/-! Theorems. -/

/-- Length of a scaled vector. -/
lemma norm3_scale (c : ℝ) (v : vector3df) :
    norm3 (scale3 c v) = |c| * norm3 v := by
  simp only [norm3, scale3, dot3]
  rw [show c * v.x * (c * v.x) + c * v.y * (c * v.y) + c * v.z * (c * v.z)
      = c ^ 2 * (v.x * v.x + v.y * v.y + v.z * v.z) by ring,
    Real.sqrt_mul (sq_nonneg c), Real.sqrt_sq_eq_abs]

/-- A vector with positive self dot product has positive length. -/
lemma norm3_pos_of_dot (v : vector3df) (h : 0 < dot3 v v) : 0 < norm3 v :=
  Real.sqrt_pos.mpr h

/-- Normalizing a plane with nonzero normal yields a unit normal. -/
lemma normalizePlane_unitNormal (pl : plane3dex)
    (h : 0 < norm3 pl.normal) : norm3 (normalizePlane pl).normal = 1 := by
  simp only [normalizePlane]
  rw [norm3_scale, abs_of_pos (one_div_pos.mpr h)]
  exact one_div_mul_cancel h.ne'

/-- Normalizing a plane with nonzero normal does not change which points
classify as inside. -/
lemma isInsidePlane_normalizePlane (pl : plane3dex) (p : vector3df)
    (h : 0 < norm3 pl.normal) :
    isInsidePlane (normalizePlane pl) p ↔ isInsidePlane pl p := by
  have hn : norm3 pl.normal ≠ 0 := h.ne'
  simp only [isInsidePlane, planeValue, normalizePlane, scale3, dot3]
  have hval : 1 / norm3 pl.normal * pl.normal.x * p.x +
      1 / norm3 pl.normal * pl.normal.y * p.y +
      1 / norm3 pl.normal * pl.normal.z * p.z + pl.d / norm3 pl.normal =
      (pl.normal.x * p.x + pl.normal.y * p.y + pl.normal.z * p.z + pl.d) /
        norm3 pl.normal := by
    field_simp
  rw [hval, le_div_iff₀ h, zero_mul]

/-- Plane slot `CVA_FAR_PLANE` of an extracted frustum is the far plane. -/
lemma extract_planes_far (M : Matrix4) (eye : vector3df) :
    (extractFrustum M eye).planes ⟨CVA_FAR_PLANE, by decide⟩ = farPlaneOf M :=
  rfl

/-- Plane slot `CVA_NEAR_PLANE` of an extracted frustum is the near plane. -/
lemma extract_planes_near (M : Matrix4) (eye : vector3df) :
    (extractFrustum M eye).planes ⟨CVA_NEAR_PLANE, by decide⟩ = nearPlaneOf M :=
  rfl

/-- Plane slot `CVA_LEFT_PLANE` of an extracted frustum is the left plane. -/
lemma extract_planes_left (M : Matrix4) (eye : vector3df) :
    (extractFrustum M eye).planes ⟨CVA_LEFT_PLANE, by decide⟩ = leftPlaneOf M :=
  rfl

/-- Plane slot `CVA_RIGHT_PLANE` of an extracted frustum is the right plane. -/
lemma extract_planes_right (M : Matrix4) (eye : vector3df) :
    (extractFrustum M eye).planes ⟨CVA_RIGHT_PLANE, by decide⟩ = rightPlaneOf M :=
  rfl

/-- Plane slot `CVA_BOTTOM_PLANE` of an extracted frustum is the bottom
plane. -/
lemma extract_planes_bottom (M : Matrix4) (eye : vector3df) :
    (extractFrustum M eye).planes ⟨CVA_BOTTOM_PLANE, by decide⟩ = bottomPlaneOf M :=
  rfl

/-- Plane slot `CVA_TOP_PLANE` of an extracted frustum is the top plane. -/
lemma extract_planes_top (M : Matrix4) (eye : vector3df) :
    (extractFrustum M eye).planes ⟨CVA_TOP_PLANE, by decide⟩ = topPlaneOf M :=
  rfl

/-- Value of the unnormalized far plane of a camera at a world point. -/
lemma preFarPlane_value (fov aspect zn zf : ℝ) (V : ViewTransform)
    (p : vector3df) :
    planeValue (preFarPlaneOf (viewProj fov aspect zn zf V)) p =
      (1 - zf / (zf - zn)) * (viewApply V p).z + zn * (zf / (zf - zn)) := by
  simp only [planeValue, preFarPlaneOf, viewProj, mul4, buildProjection,
    viewMatrixOf, viewApply, dot3]
  ring

/-- Value of the unnormalized near plane of a camera at a world point. -/
lemma preNearPlane_value (fov aspect zn zf : ℝ) (V : ViewTransform)
    (p : vector3df) :
    planeValue (preNearPlaneOf (viewProj fov aspect zn zf V)) p =
      (zf / (zf - zn)) * ((viewApply V p).z - zn) := by
  simp only [planeValue, preNearPlaneOf, viewProj, mul4, buildProjection,
    viewMatrixOf, viewApply, dot3]
  ring

/-- Value of the unnormalized left plane of a camera at a world point. -/
lemma preLeftPlane_value (fov aspect zn zf : ℝ) (V : ViewTransform)
    (p : vector3df) :
    planeValue (preLeftPlaneOf (viewProj fov aspect zn zf V)) p =
      (viewApply V p).z +
        (1 / Real.tan (fov / 2) / aspect) * (viewApply V p).x := by
  simp only [planeValue, preLeftPlaneOf, viewProj, mul4, buildProjection,
    viewMatrixOf, viewApply, dot3]
  ring

/-- Value of the unnormalized right plane of a camera at a world point. -/
lemma preRightPlane_value (fov aspect zn zf : ℝ) (V : ViewTransform)
    (p : vector3df) :
    planeValue (preRightPlaneOf (viewProj fov aspect zn zf V)) p =
      (viewApply V p).z -
        (1 / Real.tan (fov / 2) / aspect) * (viewApply V p).x := by
  simp only [planeValue, preRightPlaneOf, viewProj, mul4, buildProjection,
    viewMatrixOf, viewApply, dot3]
  ring

/-- Value of the unnormalized bottom plane of a camera at a world point. -/
lemma preBottomPlane_value (fov aspect zn zf : ℝ) (V : ViewTransform)
    (p : vector3df) :
    planeValue (preBottomPlaneOf (viewProj fov aspect zn zf V)) p =
      (viewApply V p).z + (1 / Real.tan (fov / 2)) * (viewApply V p).y := by
  simp only [planeValue, preBottomPlaneOf, viewProj, mul4, buildProjection,
    viewMatrixOf, viewApply, dot3]
  ring

/-- Value of the unnormalized top plane of a camera at a world point. -/
lemma preTopPlane_value (fov aspect zn zf : ℝ) (V : ViewTransform)
    (p : vector3df) :
    planeValue (preTopPlaneOf (viewProj fov aspect zn zf V)) p =
      (viewApply V p).z - (1 / Real.tan (fov / 2)) * (viewApply V p).y := by
  simp only [planeValue, preTopPlaneOf, viewProj, mul4, buildProjection,
    viewMatrixOf, viewApply, dot3]
  ring

/-- Self dot product of the unnormalized far plane normal of a camera with
a rigid view transform. -/
lemma preFarPlane_dot (fov aspect zn zf : ℝ) (V : ViewTransform)
    (ho : orthonormalRows V) :
    dot3 (preFarPlaneOf (viewProj fov aspect zn zf V)).normal
      (preFarPlaneOf (viewProj fov aspect zn zf V)).normal =
      (1 - zf / (zf - zn)) ^ 2 := by
  obtain ⟨h00, h11, h22, h01, h02, h12⟩ := ho
  simp only [dot3] at h00 h11 h22 h01 h02 h12
  simp only [preFarPlaneOf, viewProj, mul4, buildProjection, viewMatrixOf,
    dot3]
  linear_combination (1 - zf / (zf - zn)) ^ 2 * h22

/-- Self dot product of the unnormalized near plane normal of a camera with
a rigid view transform. -/
lemma preNearPlane_dot (fov aspect zn zf : ℝ) (V : ViewTransform)
    (ho : orthonormalRows V) :
    dot3 (preNearPlaneOf (viewProj fov aspect zn zf V)).normal
      (preNearPlaneOf (viewProj fov aspect zn zf V)).normal =
      (zf / (zf - zn)) ^ 2 := by
  obtain ⟨h00, h11, h22, h01, h02, h12⟩ := ho
  simp only [dot3] at h00 h11 h22 h01 h02 h12
  simp only [preNearPlaneOf, viewProj, mul4, buildProjection, viewMatrixOf,
    dot3]
  linear_combination (zf / (zf - zn)) ^ 2 * h22

/-- Self dot product of the unnormalized left plane normal of a camera with
a rigid view transform. -/
lemma preLeftPlane_dot (fov aspect zn zf : ℝ) (V : ViewTransform)
    (ho : orthonormalRows V) :
    dot3 (preLeftPlaneOf (viewProj fov aspect zn zf V)).normal
      (preLeftPlaneOf (viewProj fov aspect zn zf V)).normal =
      1 + (1 / Real.tan (fov / 2) / aspect) ^ 2 := by
  obtain ⟨h00, h11, h22, h01, h02, h12⟩ := ho
  simp only [dot3] at h00 h11 h22 h01 h02 h12
  simp only [preLeftPlaneOf, viewProj, mul4, buildProjection, viewMatrixOf,
    dot3]
  linear_combination h22 + 2 * (1 / Real.tan (fov / 2) / aspect) * h02 +
    (1 / Real.tan (fov / 2) / aspect) ^ 2 * h00

/-- Self dot product of the unnormalized right plane normal of a camera
with a rigid view transform. -/
lemma preRightPlane_dot (fov aspect zn zf : ℝ) (V : ViewTransform)
    (ho : orthonormalRows V) :
    dot3 (preRightPlaneOf (viewProj fov aspect zn zf V)).normal
      (preRightPlaneOf (viewProj fov aspect zn zf V)).normal =
      1 + (1 / Real.tan (fov / 2) / aspect) ^ 2 := by
  obtain ⟨h00, h11, h22, h01, h02, h12⟩ := ho
  simp only [dot3] at h00 h11 h22 h01 h02 h12
  simp only [preRightPlaneOf, viewProj, mul4, buildProjection, viewMatrixOf,
    dot3]
  linear_combination h22 - 2 * (1 / Real.tan (fov / 2) / aspect) * h02 +
    (1 / Real.tan (fov / 2) / aspect) ^ 2 * h00

/-- Self dot product of the unnormalized bottom plane normal of a camera
with a rigid view transform. -/
lemma preBottomPlane_dot (fov aspect zn zf : ℝ) (V : ViewTransform)
    (ho : orthonormalRows V) :
    dot3 (preBottomPlaneOf (viewProj fov aspect zn zf V)).normal
      (preBottomPlaneOf (viewProj fov aspect zn zf V)).normal =
      1 + (1 / Real.tan (fov / 2)) ^ 2 := by
  obtain ⟨h00, h11, h22, h01, h02, h12⟩ := ho
  simp only [dot3] at h00 h11 h22 h01 h02 h12
  simp only [preBottomPlaneOf, viewProj, mul4, buildProjection, viewMatrixOf,
    dot3]
  linear_combination h22 + 2 * (1 / Real.tan (fov / 2)) * h12 +
    (1 / Real.tan (fov / 2)) ^ 2 * h11

/-- Self dot product of the unnormalized top plane normal of a camera with
a rigid view transform. -/
lemma preTopPlane_dot (fov aspect zn zf : ℝ) (V : ViewTransform)
    (ho : orthonormalRows V) :
    dot3 (preTopPlaneOf (viewProj fov aspect zn zf V)).normal
      (preTopPlaneOf (viewProj fov aspect zn zf V)).normal =
      1 + (1 / Real.tan (fov / 2)) ^ 2 := by
  obtain ⟨h00, h11, h22, h01, h02, h12⟩ := ho
  simp only [dot3] at h00 h11 h22 h01 h02 h12
  simp only [preTopPlaneOf, viewProj, mul4, buildProjection, viewMatrixOf,
    dot3]
  linear_combination h22 - 2 * (1 / Real.tan (fov / 2)) * h12 +
    (1 / Real.tan (fov / 2)) ^ 2 * h11

/-- C5: the view frustum stores exactly six planes, indexed by the fixed
enumeration far = 0, near = 1, left = 2, right = 3, bottom = 4, top = 5,
and the plane count `CVA_PLANE_COUNT` equals 6 (so the `planes` array of
every `SViewFrustrum` has exactly 6 slots). -/
theorem planeEnumeration_spec :
    CVA_FAR_PLANE = 0 ∧ CVA_NEAR_PLANE = 1 ∧ CVA_LEFT_PLANE = 2 ∧
    CVA_RIGHT_PLANE = 3 ∧ CVA_BOTTOM_PLANE = 4 ∧ CVA_TOP_PLANE = 5 ∧
    CVA_PLANE_COUNT = 6 ∧ Fintype.card (Fin CVA_PLANE_COUNT) = 6 := by
  refine ⟨rfl, rfl, rfl, rfl, rfl, rfl, rfl, ?_⟩
  simp [CVA_PLANE_COUNT, CVA_TOP_PLANE, CVA_BOTTOM_PLANE, CVA_RIGHT_PLANE,
    CVA_LEFT_PLANE, CVA_NEAR_PLANE, CVA_FAR_PLANE]

/-- C8: a freshly constructed camera state reports the default parameters
`near = 1.0`, `far = 2000.0`, `aspect = 4/3` and `fov = π/3.5` through its
getters before any setter runs. -/
theorem initialCamera_defaults :
    getNearValue initialCamera = 1 ∧ getFarValue initialCamera = 2000 ∧
    getAspectRatio initialCamera = 4 / 3 ∧
    getFOV initialCamera = Real.pi / 3.5 :=
  ⟨rfl, rfl, rfl, rfl⟩

/-- C9: the base camera ignores every delivered input event — the state is
returned unchanged — and reports the event as not consumed (`false`). -/
theorem onEvent_ignored (s : CameraState) (event : SEvent) :
    OnEvent s event = (false, s) :=
  rfl

/-- C2 (amended): for every view frustum extracted from a valid camera
state — valid projection parameters, a rigid (orthonormal-rows) view
transform mapping the eye to the camera-space origin and the target onto
the view axis at depth `tz` — each of the six planes has a unit normal;
the eye position classifies as inside the far plane and outside the near
plane; and the target point, lying within `[near, far]` along the view
axis, satisfies `dot(normal, point) + distance ≥ 0` for all six planes. -/
theorem frustumPlaneOrientation (fov aspect zn zf : ℝ) (V : ViewTransform)
    (eye tgt : vector3df) (tz : ℝ)
    (hfov1 : 0 < fov) (hfov2 : fov < Real.pi) (ha : 0 < aspect)
    (hzn : 0 < zn) (hnf : zn < zf) (ho : orthonormalRows V)
    (heye : viewApply V eye = ⟨0, 0, 0⟩)
    (htgt : viewApply V tgt = ⟨0, 0, tz⟩)
    (htz1 : zn ≤ tz) (htz2 : tz ≤ zf) :
    (∀ i : Fin CVA_PLANE_COUNT,
      norm3 ((cameraFrustum fov aspect zn zf V eye).planes i).normal = 1) ∧
    isInsidePlane ((cameraFrustum fov aspect zn zf V eye).planes
      ⟨CVA_FAR_PLANE, by decide⟩) eye ∧
    ¬ isInsidePlane ((cameraFrustum fov aspect zn zf V eye).planes
      ⟨CVA_NEAR_PLANE, by decide⟩) eye ∧
    (∀ i : Fin CVA_PLANE_COUNT,
      isInsidePlane ((cameraFrustum fov aspect zn zf V eye).planes i) tgt) := by
  have hzf : 0 < zf := hzn.trans hnf
  have hd : 0 < zf - zn := sub_pos.mpr hnf
  have hq : 0 < zf / (zf - zn) := div_pos hzf hd
  have h1q : 1 - zf / (zf - zn) < 0 := by
    have h1 : 1 < zf / (zf - zn) := (one_lt_div hd).mpr (by linarith)
    linarith
  have hpfar : 0 < dot3 (preFarPlaneOf (viewProj fov aspect zn zf V)).normal
      (preFarPlaneOf (viewProj fov aspect zn zf V)).normal := by
    rw [preFarPlane_dot fov aspect zn zf V ho]
    nlinarith [h1q]
  have hpnear : 0 < dot3 (preNearPlaneOf (viewProj fov aspect zn zf V)).normal
      (preNearPlaneOf (viewProj fov aspect zn zf V)).normal := by
    rw [preNearPlane_dot fov aspect zn zf V ho]
    nlinarith [hq]
  have hpleft : 0 < dot3 (preLeftPlaneOf (viewProj fov aspect zn zf V)).normal
      (preLeftPlaneOf (viewProj fov aspect zn zf V)).normal := by
    rw [preLeftPlane_dot fov aspect zn zf V ho]
    positivity
  have hpright : 0 < dot3 (preRightPlaneOf (viewProj fov aspect zn zf V)).normal
      (preRightPlaneOf (viewProj fov aspect zn zf V)).normal := by
    rw [preRightPlane_dot fov aspect zn zf V ho]
    positivity
  have hpbottom : 0 < dot3 (preBottomPlaneOf (viewProj fov aspect zn zf V)).normal
      (preBottomPlaneOf (viewProj fov aspect zn zf V)).normal := by
    rw [preBottomPlane_dot fov aspect zn zf V ho]
    positivity
  have hptop : 0 < dot3 (preTopPlaneOf (viewProj fov aspect zn zf V)).normal
      (preTopPlaneOf (viewProj fov aspect zn zf V)).normal := by
    rw [preTopPlane_dot fov aspect zn zf V ho]
    positivity
  have hnfar := norm3_pos_of_dot _ hpfar
  have hnnear := norm3_pos_of_dot _ hpnear
  have hnleft := norm3_pos_of_dot _ hpleft
  have hnright := norm3_pos_of_dot _ hpright
  have hnbottom := norm3_pos_of_dot _ hpbottom
  have hntop := norm3_pos_of_dot _ hptop
  have hex : (viewApply V eye).z = 0 := by rw [heye]
  have htx : (viewApply V tgt).x = 0 := by rw [htgt]
  have hty : (viewApply V tgt).y = 0 := by rw [htgt]
  have htz : (viewApply V tgt).z = tz := by rw [htgt]
  have htz0 : 0 ≤ tz := le_trans hzn.le htz1
  have efar : isInsidePlane (preFarPlaneOf (viewProj fov aspect zn zf V)) eye := by
    show 0 ≤ planeValue (preFarPlaneOf (viewProj fov aspect zn zf V)) eye
    rw [preFarPlane_value, hex, mul_zero, zero_add]
    exact (mul_pos hzn hq).le
  have enear : ¬ isInsidePlane (preNearPlaneOf (viewProj fov aspect zn zf V)) eye := by
    show ¬ 0 ≤ planeValue (preNearPlaneOf (viewProj fov aspect zn zf V)) eye
    rw [preNearPlane_value, hex, zero_sub]
    intro hcon
    nlinarith [mul_pos hq hzn]
  have tfar : isInsidePlane (preFarPlaneOf (viewProj fov aspect zn zf V)) tgt := by
    show 0 ≤ planeValue (preFarPlaneOf (viewProj fov aspect zn zf V)) tgt
    rw [preFarPlane_value, htz]
    have key : (1 - zf / (zf - zn)) * tz + zn * (zf / (zf - zn)) =
        zn * (zf - tz) / (zf - zn) := by
      field_simp
      ring
    rw [key]
    exact div_nonneg (mul_nonneg hzn.le (by linarith)) hd.le
  have tnear : isInsidePlane (preNearPlaneOf (viewProj fov aspect zn zf V)) tgt := by
    show 0 ≤ planeValue (preNearPlaneOf (viewProj fov aspect zn zf V)) tgt
    rw [preNearPlane_value, htz]
    exact mul_nonneg hq.le (by linarith)
  have tleft : isInsidePlane (preLeftPlaneOf (viewProj fov aspect zn zf V)) tgt := by
    show 0 ≤ planeValue (preLeftPlaneOf (viewProj fov aspect zn zf V)) tgt
    rw [preLeftPlane_value, htz, htx, mul_zero, add_zero]
    exact htz0
  have tright : isInsidePlane (preRightPlaneOf (viewProj fov aspect zn zf V)) tgt := by
    show 0 ≤ planeValue (preRightPlaneOf (viewProj fov aspect zn zf V)) tgt
    rw [preRightPlane_value, htz, htx, mul_zero, sub_zero]
    exact htz0
  have tbottom : isInsidePlane (preBottomPlaneOf (viewProj fov aspect zn zf V)) tgt := by
    show 0 ≤ planeValue (preBottomPlaneOf (viewProj fov aspect zn zf V)) tgt
    rw [preBottomPlane_value, htz, hty, mul_zero, add_zero]
    exact htz0
  have ttop : isInsidePlane (preTopPlaneOf (viewProj fov aspect zn zf V)) tgt := by
    show 0 ≤ planeValue (preTopPlaneOf (viewProj fov aspect zn zf V)) tgt
    rw [preTopPlane_value, htz, hty, mul_zero, sub_zero]
    exact htz0
  have ufar : norm3 (farPlaneOf (viewProj fov aspect zn zf V)).normal = 1 :=
    normalizePlane_unitNormal _ hnfar
  have unear : norm3 (nearPlaneOf (viewProj fov aspect zn zf V)).normal = 1 :=
    normalizePlane_unitNormal _ hnnear
  have uleft : norm3 (leftPlaneOf (viewProj fov aspect zn zf V)).normal = 1 :=
    normalizePlane_unitNormal _ hnleft
  have uright : norm3 (rightPlaneOf (viewProj fov aspect zn zf V)).normal = 1 :=
    normalizePlane_unitNormal _ hnright
  have ubottom : norm3 (bottomPlaneOf (viewProj fov aspect zn zf V)).normal = 1 :=
    normalizePlane_unitNormal _ hnbottom
  have utop : norm3 (topPlaneOf (viewProj fov aspect zn zf V)).normal = 1 :=
    normalizePlane_unitNormal _ hntop
  refine ⟨?_, ?_, ?_, ?_⟩
  · intro i
    fin_cases i
    · exact ufar
    · exact unear
    · exact uleft
    · exact uright
    · exact ubottom
    · exact utop
  · show isInsidePlane
      (normalizePlane (preFarPlaneOf (viewProj fov aspect zn zf V))) eye
    rw [isInsidePlane_normalizePlane _ _ hnfar]
    exact efar
  · show ¬ isInsidePlane
      (normalizePlane (preNearPlaneOf (viewProj fov aspect zn zf V))) eye
    rw [isInsidePlane_normalizePlane _ _ hnnear]
    exact enear
  · intro i
    fin_cases i
    · show isInsidePlane
        (normalizePlane (preFarPlaneOf (viewProj fov aspect zn zf V))) tgt
      rw [isInsidePlane_normalizePlane _ _ hnfar]
      exact tfar
    · show isInsidePlane
        (normalizePlane (preNearPlaneOf (viewProj fov aspect zn zf V))) tgt
      rw [isInsidePlane_normalizePlane _ _ hnnear]
      exact tnear
    · show isInsidePlane
        (normalizePlane (preLeftPlaneOf (viewProj fov aspect zn zf V))) tgt
      rw [isInsidePlane_normalizePlane _ _ hnleft]
      exact tleft
    · show isInsidePlane
        (normalizePlane (preRightPlaneOf (viewProj fov aspect zn zf V))) tgt
      rw [isInsidePlane_normalizePlane _ _ hnright]
      exact tright
    · show isInsidePlane
        (normalizePlane (preBottomPlaneOf (viewProj fov aspect zn zf V))) tgt
      rw [isInsidePlane_normalizePlane _ _ hnbottom]
      exact tbottom
    · show isInsidePlane
        (normalizePlane (preTopPlaneOf (viewProj fov aspect zn zf V))) tgt
      rw [isInsidePlane_normalizePlane _ _ hntop]
      exact ttop

/-- Witness for C2 at a concrete valid camera state: the identity view
transform, eye at the origin, target at `(0,0,3/2)`, `fov = π/2`,
`aspect = 1`, `near = 1`, `far = 2`. -/
theorem frustumPlaneOrientation_witness :
    orthonormalRows identView ∧
    viewApply identView ⟨0, 0, 0⟩ = ⟨0, 0, 0⟩ ∧
    viewApply identView ⟨0, 0, 3 / 2⟩ = ⟨0, 0, (3 : ℝ) / 2⟩ ∧
    ((0 : ℝ) < Real.pi / 2 ∧ Real.pi / 2 < Real.pi ∧ (0 : ℝ) < 1 ∧
      (0 : ℝ) < 1 ∧ (1 : ℝ) < 2 ∧ (1 : ℝ) ≤ 3 / 2 ∧ (3 : ℝ) / 2 ≤ 2) ∧
    ((∀ i : Fin CVA_PLANE_COUNT, norm3
        ((cameraFrustum (Real.pi / 2) 1 1 2 identView ⟨0, 0, 0⟩).planes i).normal = 1) ∧
     isInsidePlane ((cameraFrustum (Real.pi / 2) 1 1 2 identView ⟨0, 0, 0⟩).planes
        ⟨CVA_FAR_PLANE, by decide⟩) ⟨0, 0, 0⟩ ∧
     ¬ isInsidePlane ((cameraFrustum (Real.pi / 2) 1 1 2 identView ⟨0, 0, 0⟩).planes
        ⟨CVA_NEAR_PLANE, by decide⟩) ⟨0, 0, 0⟩ ∧
     (∀ i : Fin CVA_PLANE_COUNT, isInsidePlane
        ((cameraFrustum (Real.pi / 2) 1 1 2 identView ⟨0, 0, 0⟩).planes i)
        ⟨0, 0, 3 / 2⟩)) := by
  have hoI : orthonormalRows identView := by
    refine ⟨?_, ?_, ?_, ?_, ?_, ?_⟩ <;> norm_num [identView, dot3]
  have hveye : viewApply identView ⟨0, 0, 0⟩ = ⟨0, 0, 0⟩ := by
    simp [viewApply, identView, dot3]
  have hvtgt : viewApply identView ⟨0, 0, 3 / 2⟩ = ⟨0, 0, (3 : ℝ) / 2⟩ := by
    simp [viewApply, identView, dot3]
  have hs1 : (0 : ℝ) < Real.pi / 2 := by positivity
  have hs2 : Real.pi / 2 < Real.pi := div_lt_self Real.pi_pos (by norm_num)
  have hs3 : (0 : ℝ) < 1 := by norm_num
  have hs4 : (1 : ℝ) < 2 := by norm_num
  have hs5 : (1 : ℝ) ≤ 3 / 2 := by norm_num
  have hs6 : (3 : ℝ) / 2 ≤ 2 := by norm_num
  exact ⟨hoI, hveye, hvtgt, ⟨hs1, hs2, hs3, hs3, hs4, hs5, hs6⟩,
    frustumPlaneOrientation (Real.pi / 2) 1 1 2 identView ⟨0, 0, 0⟩
      ⟨0, 0, 3 / 2⟩ (3 / 2) hs1 hs2 hs3 hs3 hs4 hoI hveye hvtgt hs5 hs6⟩

/-- Counterexample to C2 as stated: at the concrete valid camera state with
the identity view transform, eye `(0,0,0)`, `fov = π/2`, `aspect = 1`,
`near = 1`, `far = 2`, the eye classifies as inside the far plane (its
plane value is positive, contradicting the claimed "outside the far
plane") and as outside the near plane (its plane value is negative,
contradicting the claimed "inside the near plane"). -/
theorem frustumOrientation_counterexample :
    isInsidePlane ((cameraFrustum (Real.pi / 2) 1 1 2 identView ⟨0, 0, 0⟩).planes
      ⟨CVA_FAR_PLANE, by decide⟩) ⟨0, 0, 0⟩ ∧
    ¬ isInsidePlane ((cameraFrustum (Real.pi / 2) 1 1 2 identView ⟨0, 0, 0⟩).planes
      ⟨CVA_NEAR_PLANE, by decide⟩) ⟨0, 0, 0⟩ := by
  have hoI : orthonormalRows identView := by
    refine ⟨?_, ?_, ?_, ?_, ?_, ?_⟩ <;> norm_num [identView, dot3]
  have hez : (viewApply identView ⟨0, 0, 0⟩).z = 0 := by
    simp [viewApply, identView, dot3]
  have hpfarC : 0 < dot3
      (preFarPlaneOf (viewProj (Real.pi / 2) 1 1 2 identView)).normal
      (preFarPlaneOf (viewProj (Real.pi / 2) 1 1 2 identView)).normal := by
    rw [preFarPlane_dot (Real.pi / 2) 1 1 2 identView hoI]
    norm_num
  have hpnearC : 0 < dot3
      (preNearPlaneOf (viewProj (Real.pi / 2) 1 1 2 identView)).normal
      (preNearPlaneOf (viewProj (Real.pi / 2) 1 1 2 identView)).normal := by
    rw [preNearPlane_dot (Real.pi / 2) 1 1 2 identView hoI]
    norm_num
  have hnfarC := norm3_pos_of_dot _ hpfarC
  have hnnearC := norm3_pos_of_dot _ hpnearC
  constructor
  · show isInsidePlane
      (normalizePlane (preFarPlaneOf (viewProj (Real.pi / 2) 1 1 2 identView)))
      ⟨0, 0, 0⟩
    rw [isInsidePlane_normalizePlane _ _ hnfarC]
    show 0 ≤ planeValue (preFarPlaneOf (viewProj (Real.pi / 2) 1 1 2 identView))
      ⟨0, 0, 0⟩
    rw [preFarPlane_value, hez]
    norm_num
  · show ¬ isInsidePlane
      (normalizePlane (preNearPlaneOf (viewProj (Real.pi / 2) 1 1 2 identView)))
      ⟨0, 0, 0⟩
    rw [isInsidePlane_normalizePlane _ _ hnnearC]
    show ¬ 0 ≤ planeValue (preNearPlaneOf (viewProj (Real.pi / 2) 1 1 2 identView))
      ⟨0, 0, 0⟩
    rw [preNearPlane_value, hez]
    norm_num

/-- C1: after `setProjectionMatrix M` the camera is in Explicit mode and
`getProjectionMatrix` returns exactly `M`; this persists across the plain
accessors `setTarget` and `setUpVector`, and is discarded by any of
`setNearValue`, `setFarValue`, `setAspectRatio`, `setFOV` (with a valid
argument), after which `getProjectionMatrix` equals the projection derived
by the builder from the newly set parameter together with the previously
effective near/far/aspect/fov values. -/
theorem projectionModeToggle (s : CameraState) (M : Matrix4)
    (t u : vector3df) (zn zf aspect fovy : ℝ)
    (hzn : 0 < zn ∧ zn < s.farValue) (hzf : s.nearValue < zf)
    (ha : 0 < aspect) (hf : 0 < fovy ∧ fovy < Real.pi) :
    getProjectionMatrix (setProjectionMatrix s M) = M ∧
    getProjectionMatrix (setTarget (setProjectionMatrix s M) t) = M ∧
    getProjectionMatrix (setUpVector (setProjectionMatrix s M) u) = M ∧
    getProjectionMatrix (setNearValue (setProjectionMatrix s M) zn) =
      buildProjection s.fieldOfView s.aspectRatio zn s.farValue ∧
    getProjectionMatrix (setFarValue (setProjectionMatrix s M) zf) =
      buildProjection s.fieldOfView s.aspectRatio s.nearValue zf ∧
    getProjectionMatrix (setAspectRatio (setProjectionMatrix s M) aspect) =
      buildProjection s.fieldOfView aspect s.nearValue s.farValue ∧
    getProjectionMatrix (setFOV (setProjectionMatrix s M) fovy) =
      buildProjection fovy s.aspectRatio s.nearValue s.farValue := by
  refine ⟨rfl, rfl, rfl, ?_, ?_, ?_, ?_⟩ <;>
    simp [setProjectionMatrix, setNearValue, setFarValue, setAspectRatio,
      setFOV, getProjectionMatrix, hzn, hzf, ha, hf]

/-- Witness for C1 at a concrete state: the initial camera, the identity
matrix as explicit projection, and valid new parameter values. -/
theorem projectionModeToggle_witness :
    ((0 : ℝ) < 2 ∧ (2 : ℝ) < initialCamera.farValue) ∧
    (initialCamera.nearValue < (3000 : ℝ)) ∧
    ((0 : ℝ) < 2) ∧ ((0 : ℝ) < 1 ∧ (1 : ℝ) < Real.pi) ∧
    getProjectionMatrix (setProjectionMatrix initialCamera identity4) =
      identity4 ∧
    getProjectionMatrix (setFOV (setProjectionMatrix initialCamera identity4) 1) =
      buildProjection 1 initialCamera.aspectRatio initialCamera.nearValue
        initialCamera.farValue := by
  have hzn : (0 : ℝ) < 2 ∧ (2 : ℝ) < initialCamera.farValue := by
    constructor <;> norm_num [initialCamera]
  have hzf : initialCamera.nearValue < (3000 : ℝ) := by norm_num [initialCamera]
  have ha : (0 : ℝ) < 2 := by norm_num
  have hf : (0 : ℝ) < 1 ∧ (1 : ℝ) < Real.pi := by
    constructor
    · norm_num
    · linarith [Real.pi_gt_three]
  have h := projectionModeToggle initialCamera identity4 ⟨0, 0, 0⟩ ⟨0, 0, 0⟩
    2 3000 2 1 hzn hzf ha hf
  exact ⟨hzn, hzf, ha, hf, h.1, h.2.2.2.2.2.2⟩

/-- C6: the frustum query is idempotent — querying the frustum again on the
state returned by a first query, with no intervening setter or transform
change, yields the identical frustum (cache correctness). -/
theorem frustumIdempotent (s : CameraState) :
    (getViewFrustrum (getViewFrustrum s).2).1 = (getViewFrustrum s).1 := by
  cases h : s.cachedFrustum with
  | some f => simp [getViewFrustrum, h]
  | none => simp [getViewFrustrum, h]

/-- C7: every parameter setter preserves the validity invariant
`0 < near < far`, `0 < aspect`, `0 < fov < π` for every argument (valid or
not); an invalid argument — `near` outside `(0, far)`, `far ≤ near`,
`aspect ≤ 0`, `fov` outside `(0, π)` — is rejected as a no-op leaving the
prior state unchanged (the documented policy of this model); in particular
`setNearValue(farValue)` is such a no-op and the invariant still holds. -/
theorem setterParameterPolicy (s : CameraState) (h : validParams s) :
    (∀ z, validParams (setNearValue s z)) ∧
    (∀ z, validParams (setFarValue s z)) ∧
    (∀ a, validParams (setAspectRatio s a)) ∧
    (∀ f, validParams (setFOV s f)) ∧
    (∀ z, ¬(0 < z ∧ z < s.farValue) → setNearValue s z = s) ∧
    (∀ z, ¬(s.nearValue < z) → setFarValue s z = s) ∧
    (∀ a, ¬(0 < a) → setAspectRatio s a = s) ∧
    (∀ f, ¬(0 < f ∧ f < Real.pi) → setFOV s f = s) ∧
    setNearValue s s.farValue = s ∧
    validParams (setNearValue s s.farValue) := by
  obtain ⟨h1, h2, h3, h4, h5⟩ := h
  have noop : setNearValue s s.farValue = s := by
    rw [setNearValue, if_neg]
    rintro ⟨-, hlt⟩
    exact lt_irrefl _ hlt
  refine ⟨?_, ?_, ?_, ?_, ?_, ?_, ?_, ?_, noop, ?_⟩
  · intro z
    by_cases hc : 0 < z ∧ z < s.farValue
    · rw [setNearValue, if_pos hc]
      exact ⟨hc.1, hc.2, h3, h4, h5⟩
    · rw [setNearValue, if_neg hc]
      exact ⟨h1, h2, h3, h4, h5⟩
  · intro z
    by_cases hc : s.nearValue < z
    · rw [setFarValue, if_pos hc]
      exact ⟨h1, hc, h3, h4, h5⟩
    · rw [setFarValue, if_neg hc]
      exact ⟨h1, h2, h3, h4, h5⟩
  · intro a
    by_cases hc : 0 < a
    · rw [setAspectRatio, if_pos hc]
      exact ⟨h1, h2, hc, h4, h5⟩
    · rw [setAspectRatio, if_neg hc]
      exact ⟨h1, h2, h3, h4, h5⟩
  · intro f
    by_cases hc : 0 < f ∧ f < Real.pi
    · rw [setFOV, if_pos hc]
      exact ⟨h1, h2, h3, hc.1, hc.2⟩
    · rw [setFOV, if_neg hc]
      exact ⟨h1, h2, h3, h4, h5⟩
  · intro z hc
    rw [setNearValue, if_neg hc]
  · intro z hc
    rw [setFarValue, if_neg hc]
  · intro a hc
    rw [setAspectRatio, if_neg hc]
  · intro f hc
    rw [setFOV, if_neg hc]
  · rw [noop]
    exact ⟨h1, h2, h3, h4, h5⟩

/-- Witness for C7 at a concrete state: the initial camera satisfies the
validity invariant, and the boundary call `setNearValue(farValue)` there is
a no-op that keeps the invariant. -/
theorem setterParameterPolicy_witness :
    validParams initialCamera ∧
    setNearValue initialCamera initialCamera.farValue = initialCamera ∧
    validParams (setNearValue initialCamera initialCamera.farValue) := by
  have hval : validParams initialCamera := by
    refine ⟨by norm_num [initialCamera], by norm_num [initialCamera],
      by norm_num [initialCamera], ?_, ?_⟩
    · show (0 : ℝ) < Real.pi / 3.5
      positivity
    · show Real.pi / 3.5 < Real.pi
      exact div_lt_self Real.pi_pos (by norm_num)
  have h := setterParameterPolicy initialCamera hval
  exact ⟨hval, h.2.2.2.2.2.2.2.2.1, h.2.2.2.2.2.2.2.2.2⟩

/-- C3: for all valid inputs (`0 < fov < π`, `aspect > 0`, `0 < near < far`)
the built projection matrix scales X by `cot(fov/2)/aspect` and Y by
`cot(fov/2)` (left-handed convention), and maps the camera-space point
`(0,0,near)` to clip depth 0 and `(0,0,far)` to clip depth 1 after the
perspective W-divide. -/
theorem buildProjection_depth (fov aspect zn zf : ℝ)
    (hfov1 : 0 < fov) (hfov2 : fov < Real.pi) (ha : 0 < aspect)
    (hzn : 0 < zn) (hnf : zn < zf) :
    (buildProjection fov aspect zn zf).m00 = (1 / Real.tan (fov / 2)) / aspect ∧
    (buildProjection fov aspect zn zf).m11 = 1 / Real.tan (fov / 2) ∧
    projectedDepth (buildProjection fov aspect zn zf) ⟨0, 0, zn⟩ = 0 ∧
    projectedDepth (buildProjection fov aspect zn zf) ⟨0, 0, zf⟩ = 1 := by
  have hzf : 0 < zf := hzn.trans hnf
  have hsub : zf - zn ≠ 0 := sub_ne_zero.mpr hnf.ne'
  refine ⟨rfl, rfl, ?_, ?_⟩
  · simp only [projectedDepth, applyZ, applyW, buildProjection]
    field_simp
    ring
  · simp only [projectedDepth, applyZ, applyW, buildProjection]
    rw [div_eq_one_iff_eq (by simpa using hzf.ne')]
    field_simp
    ring

/-- Witness for C3 at the concrete valid input `fov = π/2`, `aspect = 1`,
`near = 1`, `far = 2`. -/
theorem buildProjection_depth_witness :
    ((0 : ℝ) < Real.pi / 2) ∧ (Real.pi / 2 < Real.pi) ∧ ((0 : ℝ) < 1) ∧
    ((0 : ℝ) < 1) ∧ ((1 : ℝ) < 2) ∧
    (projectedDepth (buildProjection (Real.pi / 2) 1 1 2) ⟨0, 0, 1⟩ = 0 ∧
     projectedDepth (buildProjection (Real.pi / 2) 1 1 2) ⟨0, 0, 2⟩ = 1) := by
  have h1 : (0 : ℝ) < Real.pi / 2 := by positivity
  have h2 : Real.pi / 2 < Real.pi := div_lt_self Real.pi_pos (by norm_num)
  have h3 : (0 : ℝ) < 1 := by norm_num
  have h4 : (1 : ℝ) < 2 := by norm_num
  have h := buildProjection_depth (Real.pi / 2) 1 1 2 h1 h2 h3 h3 h4
  exact ⟨h1, h2, h3, h3, h4, h.2.2.1, h.2.2.2⟩

/-- Helper: growing a box keeps every point it already contains. -/
lemma addInternalPoint_keeps (b : aabbox3d) (p q : vector3df)
    (h : isPointInsideBox b q) : isPointInsideBox (addInternalPoint b p) q := by
  obtain ⟨⟨hx1, hx2⟩, ⟨hy1, hy2⟩, ⟨hz1, hz2⟩⟩ := h
  exact ⟨⟨(min_le_left _ _).trans hx1, hx2.trans (le_max_left _ _)⟩,
         ⟨(min_le_left _ _).trans hy1, hy2.trans (le_max_left _ _)⟩,
         ⟨(min_le_left _ _).trans hz1, hz2.trans (le_max_left _ _)⟩⟩

/-- Helper: a grown box contains the point it was grown by. -/
lemma addInternalPoint_self (b : aabbox3d) (p : vector3df) :
    isPointInsideBox (addInternalPoint b p) p :=
  ⟨⟨min_le_right _ _, le_max_right _ _⟩,
   ⟨min_le_right _ _, le_max_right _ _⟩,
   ⟨min_le_right _ _, le_max_right _ _⟩⟩

/-- Helper: a box grown from a start point over four further points
contains each of the four points. -/
lemma box_grow_encloses (p0 c1 c2 c3 c4 : vector3df) :
    isPointInsideBox (addInternalPoint (addInternalPoint (addInternalPoint
      (addInternalPoint (aabboxReset p0) c1) c2) c3) c4) c1 ∧
    isPointInsideBox (addInternalPoint (addInternalPoint (addInternalPoint
      (addInternalPoint (aabboxReset p0) c1) c2) c3) c4) c2 ∧
    isPointInsideBox (addInternalPoint (addInternalPoint (addInternalPoint
      (addInternalPoint (aabboxReset p0) c1) c2) c3) c4) c3 ∧
    isPointInsideBox (addInternalPoint (addInternalPoint (addInternalPoint
      (addInternalPoint (aabboxReset p0) c1) c2) c3) c4) c4 :=
  ⟨addInternalPoint_keeps _ _ _ (addInternalPoint_keeps _ _ _
     (addInternalPoint_keeps _ _ _ (addInternalPoint_self _ _))),
   addInternalPoint_keeps _ _ _ (addInternalPoint_keeps _ _ _
     (addInternalPoint_self _ _)),
   addInternalPoint_keeps _ _ _ (addInternalPoint_self _ _),
   addInternalPoint_self _ _⟩

/-- C4: for every computed view frustum, the axis-aligned bounding box
encloses all four far corner points `rightFarDown`, `leftFarDown`,
`rightFarUp`, `leftFarUp`. -/
theorem frustumBoxEnclosesFarCorners (M : Matrix4) (eye : vector3df) :
    isPointInsideBox (extractFrustum M eye).box (extractFrustum M eye).rightFarDown ∧
    isPointInsideBox (extractFrustum M eye).box (extractFrustum M eye).leftFarDown ∧
    isPointInsideBox (extractFrustum M eye).box (extractFrustum M eye).rightFarUp ∧
    isPointInsideBox (extractFrustum M eye).box (extractFrustum M eye).leftFarUp :=
  box_grow_encloses eye _ _ _ _

/-- C10: constructing a camera scene node with position, rotation and scale
omitted initializes the underlying scene node with position `(0,0,0)`,
rotation `(0,0,0)` and scale `(1,1,1)`; and all constructor arguments are
forwarded unchanged to the `ISceneNode` base. -/
theorem cameraConstructor_defaults (parent mgr : Nat) (id : Int)
    (position rotation scaleArg : vector3df) :
    mkCameraSceneNodeDefault parent mgr id =
      ⟨parent, mgr, id, ⟨0, 0, 0⟩, ⟨0, 0, 0⟩, ⟨1, 1, 1⟩⟩ ∧
    mkCameraSceneNode parent mgr id position rotation scaleArg =
      ⟨parent, mgr, id, position, rotation, scaleArg⟩ :=
  ⟨rfl, rfl⟩

end Irr
